import Mathlib

/-!
# ScriptManager (include/ScriptManager.hpp): registries and the scoped runner

A shallow embedding of the class/component binding registry
(`registerComponent`, `registerClass`, `getClass`, `getComponentClass`) and of
the scoped runner `run` of `NovaEngine::ScriptManager`.

Modelling conventions
* `std::unordered_map<Hash, V>` is an association list with unique keys
  (`AList`); `m[k].Reset(..)` / `m[k] = v` is `AList.insert`, and the
  inserting `operator[]` is `subscript`.
* A `v8::FunctionTemplate` lives on the isolate heap and has an identity: a
  handle is its index in `Isolate.templates`. `v8::Local` / `v8::Global` are
  possibly empty handles.
* `registeredComponents_` stores `&registeredClasses_[hash]`. Elements of an
  `unordered_map` never move and this header never erases one, so the pointer
  is represented by the key of the slot it points to.
* `assert` is modelled as a failing result (`Except.error`).
* `Exception` is `const char*`: a thrown exception is a pointer into `Memory`,
  whose buffers are allocated by `Utf8Value` and freed by its destructor; the
  text behind a pointer is what `Memory.readCString` finds there.
* `Hasher::hash` (Hash.hpp) and the wrapper's `create` routine
  (js_wrappers/JsClass.hpp) are not part of the header: the first is a
  parameter `hash`, the second a field of `JsClass`.
-/

namespace NovaEngine

/-- The key type of both registries: `Hash` of the missing Hash.hpp, whose
`Hasher::hash` is the parameter `hash` of the operations below. -/
abbrev Hash := Nat

/-- The part of a `v8::FunctionTemplate` this header reads or writes: the class
name given at creation and `InstanceTemplate()->InternalFieldCount()`. -/
structure FunctionTemplate where
  className : String
  internalFieldCount : Nat
deriving DecidableEq, Repr

/-- A possibly empty `v8::Local<v8::FunctionTemplate>`: the heap index of the
template it refers to. -/
abbrev Local := Option Nat

/-- A possibly empty `v8::Global<v8::FunctionTemplate>`. -/
abbrev Global := Option Nat

/-- The `v8::Local<v8::Function>` obtained from a template by `GetFunction()`. -/
structure Function where
  ofTemplate : Local
deriving DecidableEq, Repr

/-- The isolate heap as far as the header is concerned: the function templates
allocated so far, a template's handle being its index. -/
structure Isolate where
  templates : List FunctionTemplate
deriving DecidableEq, Repr

/-- Allocation of a new function template on the heap; returns its handle. -/
def Isolate.newTemplate (iso : Isolate) (t : FunctionTemplate) : Nat × Isolate :=
  (iso.templates.length, { templates := iso.templates ++ [t] })

/-- The call `(*f)->InstanceTemplate()->InternalFieldCount()`. -/
def Isolate.InternalFieldCount (iso : Isolate) (f : Nat) : Nat :=
  match iso.templates[f]? with
  | some t => t.internalFieldCount
  | none => 0

/-- The call `(*f)->InstanceTemplate()->SetInternalFieldCount(count)`. -/
def Isolate.SetInternalFieldCount (iso : Isolate) (f : Nat) (count : Nat) : Isolate :=
  match iso.templates[f]? with
  | some t => { templates := iso.templates.set f { t with internalFieldCount := count } }
  | none => iso

/-- The call `Global::Get(isolate)`: a local handle to the same template. -/
def Global.Get (g : Global) : Local := g

/-- The call `FunctionTemplate::GetFunction()` on a local handle. -/
def GetFunction (l : Local) : Function := ⟨l⟩

/-- Modelled from the spec: js_wrappers/JsClass.hpp is missing. A wrapper type
derived from `JsWrappers::JsClass` is given by `typeid(W).name()` and by its
creation routine `create`, which builds a new template; `create name` is the
content of that template (its class name and the internal field count the
wrapper reserves for itself). -/
structure JsClass where
  typeName : String
  create : String → FunctionTemplate

/-- The state of a `ScriptManager` that the registry operations touch. -/
structure ScriptManager where
  isolate_ : Isolate
  registeredComponents_ : AList (fun _ : Hash => Hash)
  registeredClasses_ : AList (fun _ : Hash => Global)

/-- The state built by the constructor: both registries empty. -/
def ScriptManager.init : ScriptManager :=
  { isolate_ := ⟨[]⟩, registeredComponents_ := ∅, registeredClasses_ := ∅ }

/-- The inserting `std::unordered_map::operator[]`: the mapped value and the map,
which gains a default-constructed entry when the key was absent. -/
def subscript {β : Type} [Inhabited β] (m : AList (fun _ : Hash => β)) (k : Hash) :
    β × AList (fun _ : Hash => β) :=
  match m.lookup k with
  | some v => (v, m)
  | none => (default, m.insert k default)

/-- Number of entries of a map stored under key `k`. -/
def countKey {β : Type} (m : AList (fun _ : Hash => β)) (k : Hash) : Nat :=
  (m.entries.filter (fun e => decide (e.1 = k))).length

/-- `ScriptManager::registerComponent<JsComponentClass, NativeComponent>(name)`. -/
def registerComponent (hash : String → Hash) (JsComponentClass : JsClass)
    (NativeComponent : String) (name : String) (s : ScriptManager) :
    Function × ScriptManager :=
  let nativeHash := hash NativeComponent
  let h := hash JsComponentClass.typeName
  let (f, iso1) := s.isolate_.newTemplate (JsComponentClass.create name)
  let classes1 := (subscript s.registeredClasses_ h).2.insert h (some f)
  let slot := subscript classes1 h
  let components1 := (subscript s.registeredComponents_ nativeHash).2.insert nativeHash h
  let count := iso1.InternalFieldCount f + 2
  let iso2 := iso1.SetInternalFieldCount f count
  let ret := subscript slot.2 h
  (GetFunction (Global.Get ret.1),
    { isolate_ := iso2, registeredComponents_ := components1, registeredClasses_ := ret.2 })

/-- `ScriptManager::registerClass<JsClassType>(name)`. -/
def registerClass (hash : String → Hash) (JsClassType : JsClass) (name : String)
    (s : ScriptManager) : Function × ScriptManager :=
  let h := hash JsClassType.typeName
  let (f, iso1) := s.isolate_.newTemplate (JsClassType.create name)
  let classes1 := (subscript s.registeredClasses_ h).2.insert h (some f)
  let ret := subscript classes1 h
  (GetFunction (Global.Get ret.1),
    { isolate_ := iso1, registeredComponents_ := s.registeredComponents_,
      registeredClasses_ := ret.2 })

/-- The failure of an `assert`. -/
inductive AssertionFailure where
  | assertion (expr : String)
deriving DecidableEq, Repr

/-- `ScriptManager::getClass<JsClassType>()`. -/
def getClass (hash : String → Hash) (JsClassType : JsClass) (s : ScriptManager) :
    Except AssertionFailure (Local × ScriptManager) :=
  let h := hash JsClassType.typeName
  if (s.registeredClasses_.lookup h).isSome then
    let ret := subscript s.registeredClasses_ h
    .ok (Global.Get ret.1, { s with registeredClasses_ := ret.2 })
  else
    .error (.assertion "registeredClasses_.contains(hash)")

/-- Modelled from the spec: the body of `getComponentClass(Hash)` is declared in
the header but defined elsewhere. Per the spec it "tolerates absence and
returns a null/empty result rather than failing": a key without a component
entry gives the empty handle, otherwise the slot the entry points to is read.
It is a query and leaves the manager as it is. -/
def getComponentClass (s : ScriptManager) (h : Hash) : Local × ScriptManager :=
  match s.registeredComponents_.lookup h with
  | none => (none, s)
  | some slot =>
    match s.registeredClasses_.lookup slot with
    | some g => (Global.Get g, s)
    | none => (none, s)

/-- `ScriptManager::getComponentClass<ComponentType>()`. -/
def getComponentClassOf (hash : String → Hash) (ComponentType : String)
    (s : ScriptManager) : Local × ScriptManager :=
  let h := hash ComponentType
  getComponentClass s h

/-- Every handle stored in `registeredClasses_` refers to a template that has
been allocated on the isolate heap. -/
def ScriptManager.HandlesValid (s : ScriptManager) : Prop :=
  ∀ e ∈ s.registeredClasses_.entries,
    e.2.all (fun f => decide (f < s.isolate_.templates.length)) = true

instance (s : ScriptManager) : Decidable s.HandlesValid := by
  unfold ScriptManager.HandlesValid
  infer_instance

/-- No component entry dangles: every pointer kept in `registeredComponents_`
points to a slot that exists in `registeredClasses_`. -/
def ScriptManager.NoDangling (s : ScriptManager) : Prop :=
  ∀ e ∈ s.registeredComponents_.entries, e.2 ∈ s.registeredClasses_.keys

instance (s : ScriptManager) : Decidable s.NoDangling := by
  unfold ScriptManager.NoDangling
  infer_instance

/-- A call of one of the registry operations of the header. -/
inductive Op where
  | registerClass (W : JsClass) (name : String)
  | registerComponent (W : JsClass) (T : String) (name : String)
  | getClass (W : JsClass)

/-- The key an operation writes in `registeredClasses_`, if it writes one. -/
def Op.classKey (hash : String → Hash) : Op → Option Hash
  | .registerClass W _ => some (hash W.typeName)
  | .registerComponent W _ _ => some (hash W.typeName)
  | .getClass _ => none

/-- The key an operation writes in `registeredComponents_`, if it writes one. -/
def Op.componentKey (hash : String → Hash) : Op → Option Hash
  | .registerClass _ _ => none
  | .registerComponent _ T _ => some (hash T)
  | .getClass _ => none

/-- One call; `none` when the call dies on its assertion. -/
def step (hash : String → Hash) (s : ScriptManager) : Op → Option ScriptManager
  | .registerClass W name => some (registerClass hash W name s).2
  | .registerComponent W T name => some (registerComponent hash W T name s).2
  | .getClass W =>
    match getClass hash W s with
    | .ok r => some r.2
    | .error _ => none

/-- A sequence of calls, each of which has to succeed. -/
def runOps (hash : String → Hash) (s : ScriptManager) : List Op → Option ScriptManager
  | [] => some s
  | op :: ops =>
    match step hash s op with
    | some s1 => runOps hash s1 ops
    | none => none

/-! ### The scoped runner -/

/-- The text a reader of a `const char*` sees in a buffer: the characters before
the first NUL. -/
def cString (content : String) : String :=
  String.mk (content.toList.takeWhile (fun c => c != Char.ofNat 0))

/-- The native heap of character buffers: a buffer's address is its index,
`some content` is a live buffer and `none` one that has been freed. -/
structure Memory where
  buffers : List (Option String)
deriving DecidableEq, Repr

/-- A `const char*`: null or the address of a buffer. -/
abbrev CharPtr := Option Nat

/-- Allocation of a buffer holding `content`; returns its address. -/
def Memory.alloc (m : Memory) (content : String) : Nat × Memory :=
  (m.buffers.length, { buffers := m.buffers ++ [some content] })

/-- Release of the buffer at `address`. -/
def Memory.free (m : Memory) (address : Nat) : Memory :=
  { buffers := m.buffers.set address none }

/-- Reading the C string a pointer designates: defined for a pointer into a live
buffer only (`none` for a null pointer and for a pointer into freed memory, where
the read is undefined). -/
def Memory.readCString (m : Memory) (p : CharPtr) : Option String :=
  match p with
  | none => none
  | some address =>
    match m.buffers[address]? with
    | some (some content) => some (cString content)
    | _ => none

/-- The error log behind `Logger::get()` (Logger.hpp is missing), recorded as the
texts read from the arguments of the calls of `error`, oldest first; `none`
stands for an argument that designates no text. -/
structure Logger where
  errors : List (Option String)
deriving DecidableEq, Repr

/-- The call `Logger::error(msg)` with a `const char*` argument, read when the call
is made. -/
def Logger.error (l : Logger) (m : Memory) (msg : CharPtr) : Logger :=
  { errors := l.errors ++ [m.readCString msg] }

/-- What a callback running inside `run` can reach and change: the manager (through
`RunInfo::scriptManager`, with its isolate), the global logger and native memory. -/
structure World where
  scriptManager : ScriptManager
  logger : Logger
  memory : Memory

/-- A native (C++) exception in flight. `Exception` is the header's
`typedef const char* Exception`: the exception object is the pointer itself, not
the text. `other` is an exception of any other type. -/
inductive Thrown where
  | Exception (what : CharPtr)
  | other (what : String)
deriving DecidableEq, Repr

/-- The `v8::TryCatch` of `run` when control leaves the callback: the script value
it caught, if any. -/
structure TryCatch (Value : Type) where
  exception : Option Value

/-- The call `TryCatch::HasCaught()`. -/
def TryCatch.HasCaught {Value : Type} (tc : TryCatch Value) : Bool :=
  tc.exception.isSome

/-- A `v8::String::Utf8Value`: it owns the buffer `str_` points to (`str_` is null
when it was built from an empty handle). -/
structure Utf8Value where
  str_ : CharPtr
deriving DecidableEq, Repr

/-- The constructor `v8::String::Utf8Value(isolate, obj)`: allocates a buffer for
the characters of the string, none for an empty handle. -/
def Utf8Value.new (m : Memory) (obj : Option String) : Utf8Value × Memory :=
  match obj with
  | none => (⟨none⟩, m)
  | some str => (⟨some (m.alloc str).1⟩, (m.alloc str).2)

/-- The dereference `*val` of a `Utf8Value`: the pointer to its buffer. -/
def Utf8Value.deref (val : Utf8Value) : CharPtr := val.str_

/-- The destructor of `Utf8Value`: frees the buffer it owns. -/
def Utf8Value.destroy (val : Utf8Value) (m : Memory) : Memory :=
  match val.str_ with
  | some address => m.free address
  | none => m

/-- How a call of the callback ends: it returns (`.ok`) or throws a native
exception itself; what the `TryCatch` of `run` holds at that point; and the state
it leaves. -/
structure CallbackResult (Value : Type) where
  completion : Except Thrown Unit
  tryCatch : TryCatch Value
  world : World

/-- A callback handed to `run`. The `RunInfo` it receives only bundles pointers to
the manager, its isolate and the entered context, i.e. to the `World`. -/
abbrev RunCallback (Value : Type) := World → CallbackResult Value

/-- `ScriptManager::run(callback)`. `ToString` is `v8::Value::ToString(isolate)`,
which yields an empty handle when the conversion fails. An exception thrown by
the callback leaves `run` at once. Otherwise, when the `TryCatch` has caught,
`val` is built, `*val` is logged and thrown, and unwinding out of the block
destroys `val`. The locker and the isolate, handle and context scopes are not
modelled. -/
def run {Value : Type} (ToString : Value → Option String) (callback : RunCallback Value)
    (w : World) : Except Thrown Unit × World :=
  let r := callback w
  match r.completion with
  | .error e => (.error e, r.world)
  | .ok _ =>
    if r.tryCatch.HasCaught then
      match r.tryCatch.exception with
      | some exc =>
        let exceptionStr := ToString exc
        let (val, memory1) := Utf8Value.new r.world.memory exceptionStr
        let logger1 := r.world.logger.error memory1 val.deref
        let thrown := Thrown.Exception val.deref
        let memory2 := val.destroy memory1
        (.error thrown, { r.world with logger := logger1, memory := memory2 })
      | none => (.ok (), r.world)
    else
      (.ok (), r.world)

/-- The state before anything has run: empty registries, log and native heap. -/
def World.init : World :=
  { scriptManager := ScriptManager.init, logger := ⟨[]⟩, memory := ⟨[]⟩ }

/-- A callback whose script throws the string `boom`, which the `TryCatch` of `run`
catches; the callback itself returns. -/
def throwsBoom : RunCallback String :=
  fun w => { completion := .ok (), tryCatch := ⟨some "boom"⟩, world := w }

/-- A callback that runs no script and throws a native exception of its own. -/
def throwsNative : RunCallback String :=
  fun w => { completion := .error (.other "std::runtime_error"), tryCatch := ⟨none⟩, world := w }

/-- A callback that returns without any script exception. -/
def returnsQuietly : RunCallback String :=
  fun w => { completion := .ok (), tryCatch := ⟨none⟩, world := w }

/-- The string form of a script string is the string itself. -/
def stringToString : String → Option String := fun v => some v

/-! ### Concrete inputs used in the examples -/

/-- A hash used in examples: the length of the type name. -/
def lengthHash : String → Hash := fun str => str.length

/-- A wrapper that reserves one internal field for itself. -/
def PositionWrapper : JsClass :=
  { typeName := "JsPosition", create := fun name => { className := name, internalFieldCount := 1 } }

/-- A second wrapper, reserving no internal field. -/
def MeshWrapper : JsClass :=
  { typeName := "JsMesh", create := fun name => { className := name, internalFieldCount := 0 } }

/-! ## Basic facts about the map operations and the two registrations -/

theorem subscript_of_lookup {β : Type} [Inhabited β] {m : AList (fun _ : Hash => β)}
    {k : Hash} {v : β} (h : m.lookup k = some v) : subscript m k = (v, m) := by
  simp [subscript, h]

theorem subscript_insert {β : Type} [Inhabited β] (m : AList (fun _ : Hash => β))
    (k : Hash) (v : β) : (subscript m k).2.insert k v = m.insert k v := by
  unfold subscript
  cases hl : m.lookup k with
  | none => simp [AList.insert_insert]
  | some b => simp

theorem subscript_insert_self {β : Type} [Inhabited β] (m : AList (fun _ : Hash => β))
    (k : Hash) (v : β) : subscript (m.insert k v) k = (v, m.insert k v) :=
  subscript_of_lookup (AList.lookup_insert m)

theorem set_length_append (ts : List FunctionTemplate) (t u : FunctionTemplate) :
    (ts ++ [t]).set ts.length u = ts ++ [u] := by
  induction ts with
  | nil => rfl
  | cons a l ih => simp [ih]

/-- The state and result of `registerComponent`, in closed form. -/
theorem registerComponent_eq (hash : String → Hash) (W : JsClass) (T name : String)
    (s : ScriptManager) :
    registerComponent hash W T name s =
      (⟨some s.isolate_.templates.length⟩,
        { isolate_ := ⟨s.isolate_.templates ++
            [{ W.create name with
                internalFieldCount := (W.create name).internalFieldCount + 2 }]⟩,
          registeredComponents_ := s.registeredComponents_.insert (hash T) (hash W.typeName),
          registeredClasses_ :=
            s.registeredClasses_.insert (hash W.typeName) (some s.isolate_.templates.length) }) := by
  simp [registerComponent, Isolate.newTemplate, subscript_insert, subscript_insert_self,
    Isolate.InternalFieldCount, Isolate.SetInternalFieldCount, set_length_append,
    GetFunction, Global.Get]

/-- The state and result of `registerClass`, in closed form. -/
theorem registerClass_eq (hash : String → Hash) (W : JsClass) (name : String)
    (s : ScriptManager) :
    registerClass hash W name s =
      (⟨some s.isolate_.templates.length⟩,
        { isolate_ := ⟨s.isolate_.templates ++ [W.create name]⟩,
          registeredComponents_ := s.registeredComponents_,
          registeredClasses_ :=
            s.registeredClasses_.insert (hash W.typeName) (some s.isolate_.templates.length) }) := by
  simp [registerClass, Isolate.newTemplate, subscript_insert, subscript_insert_self,
    GetFunction, Global.Get]

theorem internalFieldCount_last (ts : List FunctionTemplate) (t : FunctionTemplate) :
    Isolate.InternalFieldCount ⟨ts ++ [t]⟩ ts.length = t.internalFieldCount := by
  simp [Isolate.InternalFieldCount]

theorem getComponentClass_of_lookups {s : ScriptManager} {h slot : Hash} {g : Global}
    (hc : s.registeredComponents_.lookup h = some slot)
    (hs : s.registeredClasses_.lookup slot = some g) :
    getComponentClass s h = (g, s) := by
  simp [getComponentClass, hc, hs, Global.Get]

/-! ## Registration followed by lookup -/

/-- C1: right after `registerComponent<W, T>(name)`, the component lookup under
`hash(T)` (by key and through the template overload) returns the handle of the
template allocated for `W.create name` in that call: the component entry for
`hash(T)` points to the class slot `hash(W)`, and that slot holds this template,
which did not exist before the call and is as `create` built it, with two
internal fields added. The lookup changes nothing. -/
theorem registerComponent_getComponentClass (hash : String → Hash) (W : JsClass)
    (T name : String) (s : ScriptManager) :
    let f := (s.isolate_.newTemplate (W.create name)).1
    let s1 := (registerComponent hash W T name s).2
    getComponentClass s1 (hash T) = (some f, s1) ∧
    getComponentClassOf hash T s1 = (some f, s1) ∧
    s1.registeredComponents_.lookup (hash T) = some (hash W.typeName) ∧
    s1.registeredClasses_.lookup (hash W.typeName) = some (some f) ∧
    s.isolate_.templates[f]? = none ∧
    s1.isolate_.templates[f]? =
      some { W.create name with
        internalFieldCount := (W.create name).internalFieldCount + 2 } := by
  intro f s1
  have hc : s1.registeredComponents_.lookup (hash T) = some (hash W.typeName) := by
    simp [s1, registerComponent_eq, AList.lookup_insert]
  have hs : s1.registeredClasses_.lookup (hash W.typeName) = some (some f) := by
    simp [s1, f, registerComponent_eq, AList.lookup_insert, Isolate.newTemplate]
  refine ⟨getComponentClass_of_lookups hc hs, ?_, hc, hs, ?_, ?_⟩
  · exact getComponentClass_of_lookups hc hs
  · simp [f, Isolate.newTemplate]
  · simp [s1, f, registerComponent_eq, Isolate.newTemplate]

/-! ## Internal field counts -/

/-- What `registerClass<W>(name)` leaves behind: the template made by `W.create`
is stored under `hash(W)` with the internal field count `create` gave it, since
the function never calls `SetInternalFieldCount`, and the function of that
template is returned. -/
theorem registerClass_internalFieldCount (hash : String → Hash) (W : JsClass)
    (name : String) (s : ScriptManager) :
    let f := (s.isolate_.newTemplate (W.create name)).1
    let r := registerClass hash W name s
    r.2.registeredClasses_.lookup (hash W.typeName) = some (some f) ∧
    r.2.isolate_.InternalFieldCount f = (W.create name).internalFieldCount ∧
    r.2.isolate_.templates[f]? = some (W.create name) ∧
    r.1 = GetFunction (some f) := by
  simp [registerClass_eq, AList.lookup_insert, Isolate.newTemplate, internalFieldCount_last,
    GetFunction]

/-- C4 (the code at the failing input): `PositionWrapper.create` reserves one
internal field. After `registerClass<PositionWrapper>("Position")` on the initial
manager the template stored under the wrapper's hash is template 0 and has one
internal field, where the fixed layout asks for 1 + 2 = 3; the same wrapper
registered with `registerComponent` gets the three. -/
theorem registerClass_misses_slot_expansion_example :
    (registerClass lengthHash PositionWrapper "Position"
        ScriptManager.init).2.registeredClasses_.lookup
          (lengthHash PositionWrapper.typeName) = some (some 0) ∧
    (registerClass lengthHash PositionWrapper "Position"
        ScriptManager.init).2.isolate_.InternalFieldCount 0 = 1 ∧
    (PositionWrapper.create "Position").internalFieldCount + 2 = 3 ∧
    (registerComponent lengthHash PositionWrapper "Position" "Position"
        ScriptManager.init).2.isolate_.InternalFieldCount 0 = 3 := by
  refine ⟨?_, ?_, ?_, ?_⟩ <;> decide

/-- C5: `registerComponent<W, T>(name)` leaves the template it registers under
`hash(W)` with the internal field count set by `W.create` plus 2, and the
constructor it returns is the function of that same template. -/
theorem registerComponent_internalFieldCount (hash : String → Hash) (W : JsClass)
    (T name : String) (s : ScriptManager) :
    let f := (s.isolate_.newTemplate (W.create name)).1
    let r := registerComponent hash W T name s
    r.2.registeredClasses_.lookup (hash W.typeName) = some (some f) ∧
    r.2.isolate_.InternalFieldCount f = (W.create name).internalFieldCount + 2 ∧
    r.1 = GetFunction (some f) := by
  simp [registerComponent_eq, AList.lookup_insert, Isolate.newTemplate,
    internalFieldCount_last, GetFunction]

/-! ## Lookup of a wrapper class -/

/-- `getClass` in closed form: the slot's handle without any change of the manager
when the key is present, the assertion failure otherwise. -/
theorem getClass_eq (hash : String → Hash) (W : JsClass) (s : ScriptManager) :
    getClass hash W s =
      match s.registeredClasses_.lookup (hash W.typeName) with
      | some g => .ok (Global.Get g, s)
      | none => .error (.assertion "registeredClasses_.contains(hash)") := by
  unfold getClass
  cases hl : s.registeredClasses_.lookup (hash W.typeName) with
  | none => simp [hl]
  | some g => simp [hl, subscript_of_lookup hl]

theorem step_registeredClasses_mem (hash : String → Hash) {s s1 : ScriptManager} {op : Op}
    (h : step hash s op = some s1) (k : Hash) :
    k ∈ s1.registeredClasses_ ↔ k ∈ s.registeredClasses_ ∨ op.classKey hash = some k := by
  cases op with
  | registerClass W name =>
    simp only [step, Option.some.injEq] at h
    subst h
    simp only [registerClass_eq, AList.mem_insert, Op.classKey, Option.some.injEq]
    constructor
    · rintro (h | h)
      · exact Or.inr h.symm
      · exact Or.inl h
    · rintro (h | h)
      · exact Or.inr h
      · exact Or.inl h.symm
  | registerComponent W T name =>
    simp only [step, Option.some.injEq] at h
    subst h
    simp only [registerComponent_eq, AList.mem_insert, Op.classKey, Option.some.injEq]
    constructor
    · rintro (h | h)
      · exact Or.inr h.symm
      · exact Or.inl h
    · rintro (h | h)
      · exact Or.inr h
      · exact Or.inl h.symm
  | getClass W =>
    simp only [step, getClass_eq] at h
    cases hl : s.registeredClasses_.lookup (hash W.typeName) with
    | none => simp [hl] at h
    | some g =>
      simp only [hl, Option.some.injEq] at h
      subst h
      simp [Op.classKey]

theorem step_registeredComponents_mem (hash : String → Hash) {s s1 : ScriptManager} {op : Op}
    (h : step hash s op = some s1) (k : Hash) :
    k ∈ s1.registeredComponents_ ↔
      k ∈ s.registeredComponents_ ∨ op.componentKey hash = some k := by
  cases op with
  | registerClass W name =>
    simp only [step, Option.some.injEq] at h
    subst h
    simp [registerClass_eq, Op.componentKey]
  | registerComponent W T name =>
    simp only [step, Option.some.injEq] at h
    subst h
    simp only [registerComponent_eq, AList.mem_insert, Op.componentKey, Option.some.injEq]
    constructor
    · rintro (h | h)
      · exact Or.inr h.symm
      · exact Or.inl h
    · rintro (h | h)
      · exact Or.inr h
      · exact Or.inl h.symm
  | getClass W =>
    simp only [step, getClass_eq] at h
    cases hl : s.registeredClasses_.lookup (hash W.typeName) with
    | none => simp [hl] at h
    | some g =>
      simp only [hl, Option.some.injEq] at h
      subst h
      simp [Op.componentKey]

theorem runOps_registeredClasses_mem (hash : String → Hash) (ops : List Op) :
    ∀ {s s1 : ScriptManager}, runOps hash s ops = some s1 → ∀ k : Hash,
      (k ∈ s1.registeredClasses_ ↔
        k ∈ s.registeredClasses_ ∨ ∃ op ∈ ops, op.classKey hash = some k) := by
  induction ops with
  | nil =>
    intro s s1 h k
    simp only [runOps, Option.some.injEq] at h
    subst h
    simp
  | cons op ops ih =>
    intro s s1 h k
    simp only [runOps] at h
    cases hs : step hash s op with
    | none => simp [hs] at h
    | some s2 =>
      simp only [hs] at h
      rw [ih h k, step_registeredClasses_mem hash hs k]
      simp only [List.mem_cons, exists_eq_or_imp, or_assoc]

theorem runOps_registeredComponents_mem (hash : String → Hash) (ops : List Op) :
    ∀ {s s1 : ScriptManager}, runOps hash s ops = some s1 → ∀ k : Hash,
      (k ∈ s1.registeredComponents_ ↔
        k ∈ s.registeredComponents_ ∨ ∃ op ∈ ops, op.componentKey hash = some k) := by
  induction ops with
  | nil =>
    intro s s1 h k
    simp only [runOps, Option.some.injEq] at h
    subst h
    simp
  | cons op ops ih =>
    intro s s1 h k
    simp only [runOps] at h
    cases hs : step hash s op with
    | none => simp [hs] at h
    | some s2 =>
      simp only [hs] at h
      rw [ih h k, step_registeredComponents_mem hash hs k]
      simp only [List.mem_cons, exists_eq_or_imp, or_assoc]

/-- C2: in the state `s` reached from `s0` by any successful calls `ops`,
`getClass<W>()` dies on its assertion exactly when `registeredClasses_` has no
entry for `hash(W)`, which is the case exactly when `s0` had none and none of the
calls was a `registerClass` or `registerComponent` writing that key; when the
entry is present the call succeeds, returns the handle stored in the slot and
leaves the manager (both registries) as it was. -/
theorem getClass_asserts_iff_unregistered (hash : String → Hash) (W : JsClass)
    (ops : List Op) (s0 s : ScriptManager) (hrun : runOps hash s0 ops = some s) :
    ((∃ e, getClass hash W s = .error e) ↔ hash W.typeName ∉ s.registeredClasses_) ∧
    (hash W.typeName ∉ s.registeredClasses_ ↔
      hash W.typeName ∉ s0.registeredClasses_ ∧
        ∀ op ∈ ops, op.classKey hash ≠ some (hash W.typeName)) ∧
    (∀ g, s.registeredClasses_.lookup (hash W.typeName) = some g →
      getClass hash W s = .ok (Global.Get g, s)) ∧
    (hash W.typeName ∈ s.registeredClasses_ →
      ∃ g, s.registeredClasses_.lookup (hash W.typeName) = some g ∧
        getClass hash W s = .ok (Global.Get g, s)) := by
  refine ⟨?_, ?_, ?_, ?_⟩
  · rw [getClass_eq, ← AList.lookup_eq_none]
    cases hl : s.registeredClasses_.lookup (hash W.typeName) with
    | none => simp
    | some g => simp
  · rw [runOps_registeredClasses_mem hash ops hrun]
    simp only [not_or, not_exists, not_and, ne_eq]
  · intro g hg
    rw [getClass_eq, hg]
  · intro hmem
    rw [← AList.lookup_isSome, Option.isSome_iff_exists] at hmem
    obtain ⟨g, hg⟩ := hmem
    exact ⟨g, hg, by rw [getClass_eq, hg]⟩

/-- C2, on a concrete run: after `registerClass<PositionWrapper>("Position")` on
the initial manager the lookup returns handle 0 and changes nothing. -/
theorem getClass_asserts_iff_unregistered_witness :
    runOps lengthHash ScriptManager.init [.registerClass PositionWrapper "Position"] =
      some (registerClass lengthHash PositionWrapper "Position" ScriptManager.init).2 ∧
    getClass lengthHash PositionWrapper
        (registerClass lengthHash PositionWrapper "Position" ScriptManager.init).2 =
      .ok (Global.Get (some 0),
        (registerClass lengthHash PositionWrapper "Position" ScriptManager.init).2) :=
  ⟨rfl, (getClass_asserts_iff_unregistered lengthHash PositionWrapper
    [.registerClass PositionWrapper "Position"] ScriptManager.init
    (registerClass lengthHash PositionWrapper "Position" ScriptManager.init).2 rfl).2.2.1
      (some 0) (by decide)⟩

/-! ## Lookup of a component class -/

/-- C7: let `s` be reached from `s0` by successful calls `ops`. If `s0` has no
component entry under key `h` and none of the calls is a `registerComponent`
whose native type hashes to `h`, then `getComponentClass(h)` returns the empty
handle without failing and leaves the manager unchanged, so no entry for `h`
appears; the same holds for `getComponentClass<T>()` with `hash(T) = h`. -/
theorem getComponentClass_unregistered (hash : String → Hash) (ops : List Op)
    (s0 s : ScriptManager) (h : Hash) (hrun : runOps hash s0 ops = some s)
    (h0 : h ∉ s0.registeredComponents_)
    (hno : ∀ op ∈ ops, op.componentKey hash ≠ some h) :
    getComponentClass s h = (none, s) ∧
    h ∉ (getComponentClass s h).2.registeredComponents_ ∧
    (∀ T : String, hash T = h → getComponentClassOf hash T s = (none, s)) := by
  have hs : h ∉ s.registeredComponents_ := by
    rw [runOps_registeredComponents_mem hash ops hrun]
    rintro (hm | ⟨op, hop, hk⟩)
    · exact h0 hm
    · exact hno op hop hk
  have hl : s.registeredComponents_.lookup h = none := AList.lookup_eq_none.mpr hs
  have hg : getComponentClass s h = (none, s) := by simp [getComponentClass, hl]
  refine ⟨hg, ?_, ?_⟩
  · rw [hg]
    exact hs
  · intro T hT
    simp only [getComponentClassOf, hT, hg]

/-- C7, on a concrete run: after registering a component for the native type
`"Position"` (key 8), the lookup under key 5 is empty. -/
theorem getComponentClass_unregistered_witness :
    getComponentClass
        (registerComponent lengthHash PositionWrapper "Position" "Position"
          ScriptManager.init).2 5 =
      (none, (registerComponent lengthHash PositionWrapper "Position" "Position"
          ScriptManager.init).2) :=
  (getComponentClass_unregistered lengthHash
    [.registerComponent PositionWrapper "Position" "Position"] ScriptManager.init
    (registerComponent lengthHash PositionWrapper "Position" "Position" ScriptManager.init).2
    5 rfl (by decide) (by decide)).1

/-! ## Invariants of the registries -/

theorem noDangling_iff (s : ScriptManager) :
    s.NoDangling ↔
      ∀ k p, s.registeredComponents_.lookup k = some p → p ∈ s.registeredClasses_ := by
  unfold ScriptManager.NoDangling
  constructor
  · intro h k p hl
    have hmem : (⟨k, p⟩ : Sigma (fun _ : Hash => Hash)) ∈ s.registeredComponents_.entries :=
      AList.mem_lookup_iff.mp (by simp [hl])
    exact AList.mem_keys.mpr (h _ hmem)
  · intro h e he
    have hl : s.registeredComponents_.lookup e.1 = some e.2 := by
      have := (AList.mem_lookup_iff (s := s.registeredComponents_) (a := e.1) (b := e.2)).mpr he
      simpa using this
    exact AList.mem_keys.mp (h _ _ hl)

theorem handlesValid_iff (s : ScriptManager) :
    s.HandlesValid ↔
      ∀ k f, s.registeredClasses_.lookup k = some (some f) →
        f < s.isolate_.templates.length := by
  unfold ScriptManager.HandlesValid
  constructor
  · intro h k f hl
    have hmem : (⟨k, some f⟩ : Sigma (fun _ : Hash => Global)) ∈ s.registeredClasses_.entries :=
      AList.mem_lookup_iff.mp (by simp [hl])
    simpa using h _ hmem
  · intro h e he
    have hl : s.registeredClasses_.lookup e.1 = some e.2 := by
      have := (AList.mem_lookup_iff (s := s.registeredClasses_) (a := e.1) (b := e.2)).mpr he
      simpa using this
    cases h2 : e.2 with
    | none => simp
    | some f =>
      rw [h2] at hl
      simpa using h _ _ hl

theorem step_noDangling (hash : String → Hash) {s s1 : ScriptManager} {op : Op}
    (h : step hash s op = some s1) (hs : s.NoDangling) : s1.NoDangling := by
  rw [noDangling_iff] at hs ⊢
  intro k p hl
  rw [step_registeredClasses_mem hash h]
  cases op with
  | registerClass W name =>
    simp only [step, Option.some.injEq] at h
    subst h
    simp only [registerClass_eq] at hl
    exact Or.inl (hs k p hl)
  | registerComponent W T name =>
    simp only [step, Option.some.injEq] at h
    subst h
    simp only [registerComponent_eq] at hl
    by_cases hk : k = hash T
    · subst hk
      rw [AList.lookup_insert] at hl
      injection hl with hl
      exact Or.inr (by simp [Op.classKey, hl])
    · rw [AList.lookup_insert_ne hk] at hl
      exact Or.inl (hs k p hl)
  | getClass W =>
    simp only [step, getClass_eq] at h
    cases hg : s.registeredClasses_.lookup (hash W.typeName) with
    | none => simp [hg] at h
    | some g =>
      simp only [hg, Option.some.injEq] at h
      subst h
      exact Or.inl (hs k p hl)

theorem runOps_noDangling (hash : String → Hash) (ops : List Op) :
    ∀ {s s1 : ScriptManager}, runOps hash s ops = some s1 → s.NoDangling → s1.NoDangling := by
  induction ops with
  | nil =>
    intro s s1 h hs
    simp only [runOps, Option.some.injEq] at h
    subst h
    exact hs
  | cons op ops ih =>
    intro s s1 h hs
    simp only [runOps] at h
    cases hst : step hash s op with
    | none => simp [hst] at h
    | some s2 =>
      simp only [hst] at h
      exact ih h (step_noDangling hash hst hs)

theorem runOps_append (hash : String → Hash) (pre post : List Op) :
    ∀ s : ScriptManager, runOps hash s (pre ++ post) =
      match runOps hash s pre with
      | some s1 => runOps hash s1 post
      | none => none := by
  induction pre with
  | nil => intro s; rfl
  | cons op pre ih =>
    intro s
    simp only [List.cons_append, runOps]
    cases step hash s op with
    | none => rfl
    | some s2 => exact ih s2

/-- C10: let `s1` be reached from the initial (empty) registries by successful
calls `pre`, and `s` from `s1` by further successful calls `post` of
`registerClass`, `registerComponent` and `getClass`. Then no component entry of
`s` dangles (each points to a key present in `registeredClasses_`), and every key
of either registry of `s1` is still a key of that registry in `s`. -/
theorem registries_noDangling_and_grow (hash : String → Hash) (pre post : List Op)
    (s1 s : ScriptManager) (hpre : runOps hash ScriptManager.init pre = some s1)
    (hpost : runOps hash s1 post = some s) :
    s.NoDangling ∧
    (∀ k p, s.registeredComponents_.lookup k = some p → p ∈ s.registeredClasses_) ∧
    (∀ k, k ∈ s1.registeredClasses_ → k ∈ s.registeredClasses_) ∧
    (∀ k, k ∈ s1.registeredComponents_ → k ∈ s.registeredComponents_) := by
  have hinit : ScriptManager.init.NoDangling := by decide
  have hs : s.NoDangling :=
    runOps_noDangling hash post hpost (runOps_noDangling hash pre hpre hinit)
  refine ⟨hs, (noDangling_iff s).mp hs, ?_, ?_⟩
  · intro k hk
    exact (runOps_registeredClasses_mem hash post hpost k).mpr (Or.inl hk)
  · intro k hk
    exact (runOps_registeredComponents_mem hash post hpost k).mpr (Or.inl hk)

/-- C10, on a concrete run: a component registration followed by a class
registration and a successful `getClass`. -/
theorem registries_noDangling_and_grow_witness :
    (∃ s1 s, runOps lengthHash ScriptManager.init
        [.registerComponent PositionWrapper "Position" "Position"] = some s1 ∧
      runOps lengthHash s1 [.registerClass MeshWrapper "Mesh", .getClass PositionWrapper] =
        some s ∧
      s.NoDangling ∧ (∀ k, k ∈ s1.registeredClasses_ → k ∈ s.registeredClasses_)) :=
  ⟨_, _, rfl, rfl,
    (registries_noDangling_and_grow lengthHash
      [.registerComponent PositionWrapper "Position" "Position"]
      [.registerClass MeshWrapper "Mesh", .getClass PositionWrapper] _ _ rfl rfl).1,
    (registries_noDangling_and_grow lengthHash
      [.registerComponent PositionWrapper "Position" "Position"]
      [.registerClass MeshWrapper "Mesh", .getClass PositionWrapper] _ _ rfl rfl).2.2.1⟩

theorem step_handlesValid (hash : String → Hash) {s s1 : ScriptManager} {op : Op}
    (h : step hash s op = some s1) (hs : s.HandlesValid) : s1.HandlesValid := by
  rw [handlesValid_iff] at hs ⊢
  intro k f hl
  cases op with
  | registerClass W name =>
    simp only [step, Option.some.injEq] at h
    subst h
    simp only [registerClass_eq] at hl ⊢
    by_cases hk : k = hash W.typeName
    · subst hk
      rw [AList.lookup_insert] at hl
      injection hl with hl
      injection hl with hl
      simp [← hl]
    · rw [AList.lookup_insert_ne hk] at hl
      have := hs k f hl
      simp only [List.length_append, List.length_singleton]
      omega
  | registerComponent W T name =>
    simp only [step, Option.some.injEq] at h
    subst h
    simp only [registerComponent_eq] at hl ⊢
    by_cases hk : k = hash W.typeName
    · subst hk
      rw [AList.lookup_insert] at hl
      injection hl with hl
      injection hl with hl
      simp [← hl]
    · rw [AList.lookup_insert_ne hk] at hl
      have := hs k f hl
      simp only [List.length_append, List.length_singleton]
      omega
  | getClass W =>
    simp only [step, getClass_eq] at h
    cases hg : s.registeredClasses_.lookup (hash W.typeName) with
    | none => simp [hg] at h
    | some g =>
      simp only [hg, Option.some.injEq] at h
      subst h
      exact hs k f hl

/-- Every manager reached from the initial one by successful calls only stores
handles of allocated templates. -/
theorem runOps_handlesValid (hash : String → Hash) (ops : List Op) :
    ∀ {s s1 : ScriptManager}, runOps hash s ops = some s1 → s.HandlesValid →
      s1.HandlesValid := by
  induction ops with
  | nil =>
    intro s s1 h hs
    simp only [runOps, Option.some.injEq] at h
    subst h
    exact hs
  | cons op ops ih =>
    intro s s1 h hs
    simp only [runOps] at h
    cases hst : step hash s op with
    | none => simp [hst] at h
    | some s2 =>
      simp only [hst] at h
      exact ih h (step_handlesValid hash hst hs)

theorem init_handlesValid : ScriptManager.init.HandlesValid := by decide

/-! ## Registering again under the same wrapper type -/

theorem countKey_insert_self {β : Type} (m : AList (fun _ : Hash => β)) (k : Hash) (v : β) :
    countKey (m.insert k v) k = 1 := by
  have hnot : k ∉ (List.kerase k m.entries).keys := List.not_mem_keys_kerase k m.nodupKeys
  have hrest : (List.kerase k m.entries).filter (fun e => decide (e.1 = k)) = [] := by
    rw [List.filter_eq_nil_iff]
    intro e he hk
    apply hnot
    have hk2 : e.1 = k := by simpa using hk
    have hmem : e.1 ∈ (List.kerase k m.entries).keys := List.mem_keys_of_mem he
    rwa [hk2] at hmem
  simp [countKey, AList.insert_entries, List.filter_cons, hrest]

/-- C6: on a manager whose stored handles all refer to allocated templates,
`registerClass<W>(n1)` followed by `registerClass<W>(n2)` both succeed and leave
exactly one entry for `hash(W)` in `registeredClasses_`; `getClass<W>()` then
returns the template created by the second call, which is not the one created
by the first call; and the first template is held by no slot of
`registeredClasses_`, in particular by no slot that an entry of
`registeredComponents_` points to. -/
theorem registerClass_twice_overwrites (hash : String → Hash) (W : JsClass)
    (n1 n2 : String) (s : ScriptManager) (hs : s.HandlesValid) :
    let f1 := (s.isolate_.newTemplate (W.create n1)).1
    let s1 := (registerClass hash W n1 s).2
    let f2 := (s1.isolate_.newTemplate (W.create n2)).1
    let s2 := (registerClass hash W n2 s1).2
    countKey s2.registeredClasses_ (hash W.typeName) = 1 ∧
    getClass hash W s2 = .ok (some f2, s2) ∧
    s2.isolate_.templates[f2]? = some (W.create n2) ∧
    f2 ≠ f1 ∧
    (∀ k, s2.registeredClasses_.lookup k ≠ some (some f1)) ∧
    (∀ k slot, s2.registeredComponents_.lookup k = some slot →
      s2.registeredClasses_.lookup slot ≠ some (some f1)) := by
  intro f1 s1 f2 s2
  rw [handlesValid_iff] at hs
  have hf1 : f1 = s.isolate_.templates.length := rfl
  have hf2 : f2 = s.isolate_.templates.length + 1 := by
    simp [f2, s1, registerClass_eq, Isolate.newTemplate]
  have hcl : s2.registeredClasses_ =
      s.registeredClasses_.insert (hash W.typeName) (some f2) := by
    simp [s2, s1, f2, registerClass_eq, AList.insert_insert, Isolate.newTemplate]
  have hslot : ∀ k, s2.registeredClasses_.lookup k ≠ some (some f1) := by
    intro k hk
    rw [hcl] at hk
    by_cases hkh : k = hash W.typeName
    · subst hkh
      rw [AList.lookup_insert] at hk
      injection hk with hk
      injection hk with hk
      omega
    · rw [AList.lookup_insert_ne hkh] at hk
      have := hs k f1 hk
      omega
  refine ⟨?_, ?_, ?_, by omega, hslot, ?_⟩
  · rw [hcl]
    exact countKey_insert_self _ _ _
  · rw [getClass_eq, hcl, AList.lookup_insert]
    rfl
  · have hts : s2.isolate_.templates = (s.isolate_.templates ++ [W.create n1]) ++ [W.create n2] := by
      simp [s2, s1, registerClass_eq]
    have hlen : f2 = (s.isolate_.templates ++ [W.create n1]).length := by simp [hf2]
    rw [hts, hlen, List.getElem?_concat_length]
  · intro k slot _
    exact hslot slot

/-- C6, on a concrete manager: one that already holds a component registration. -/
theorem registerClass_twice_overwrites_witness :
    (registerComponent lengthHash PositionWrapper "Position" "Position"
        ScriptManager.init).2.HandlesValid ∧
    getClass lengthHash PositionWrapper
        (registerClass lengthHash PositionWrapper "B"
          (registerClass lengthHash PositionWrapper "A"
            (registerComponent lengthHash PositionWrapper "Position" "Position"
              ScriptManager.init).2).2).2 =
      .ok (some 2,
        (registerClass lengthHash PositionWrapper "B"
          (registerClass lengthHash PositionWrapper "A"
            (registerComponent lengthHash PositionWrapper "Position" "Position"
              ScriptManager.init).2).2).2) :=
  ⟨by decide,
    (registerClass_twice_overwrites lengthHash PositionWrapper "A" "B"
      (registerComponent lengthHash PositionWrapper "Position" "Position"
        ScriptManager.init).2 (by decide)).2.1⟩

/-! ## The component registry aliases the class slot -/

theorem step_templates_length (hash : String → Hash) {s s1 : ScriptManager} {op : Op}
    (h : step hash s op = some s1) :
    s.isolate_.templates.length ≤ s1.isolate_.templates.length := by
  cases op with
  | registerClass W name =>
    simp only [step, Option.some.injEq] at h
    subst h
    simp [registerClass_eq]
  | registerComponent W T name =>
    simp only [step, Option.some.injEq] at h
    subst h
    simp [registerComponent_eq]
  | getClass W =>
    simp only [step, getClass_eq] at h
    cases hg : s.registeredClasses_.lookup (hash W.typeName) with
    | none => simp [hg] at h
    | some g =>
      simp only [hg, Option.some.injEq] at h
      subst h
      exact Nat.le_refl _

theorem runOps_templates_length (hash : String → Hash) (ops : List Op) :
    ∀ {s s1 : ScriptManager}, runOps hash s ops = some s1 →
      s.isolate_.templates.length ≤ s1.isolate_.templates.length := by
  induction ops with
  | nil =>
    intro s s1 h
    simp only [runOps, Option.some.injEq] at h
    subst h
    exact Nat.le_refl _
  | cons op ops ih =>
    intro s s1 h
    simp only [runOps] at h
    cases hst : step hash s op with
    | none => simp [hst] at h
    | some s2 =>
      simp only [hst] at h
      exact Nat.le_trans (step_templates_length hash hst) (ih h)

theorem step_component_lookup_keep (hash : String → Hash) {s s1 : ScriptManager} {op : Op}
    {k slot : Hash} (h : step hash s op = some s1)
    (hl : s.registeredComponents_.lookup k = some slot)
    (hkeep : op.componentKey hash = some k → op.classKey hash = some slot) :
    s1.registeredComponents_.lookup k = some slot := by
  cases op with
  | registerClass W name =>
    simp only [step, Option.some.injEq] at h
    subst h
    simpa [registerClass_eq] using hl
  | registerComponent W T name =>
    simp only [step, Option.some.injEq] at h
    subst h
    simp only [registerComponent_eq]
    by_cases hk : k = hash T
    · subst hk
      have := hkeep rfl
      simp only [Op.classKey, Option.some.injEq] at this
      rw [AList.lookup_insert, this]
    · rw [AList.lookup_insert_ne hk]
      exact hl
  | getClass W =>
    simp only [step, getClass_eq] at h
    cases hg : s.registeredClasses_.lookup (hash W.typeName) with
    | none => simp [hg] at h
    | some g =>
      simp only [hg, Option.some.injEq] at h
      subst h
      exact hl

theorem runOps_component_lookup_keep (hash : String → Hash) (ops : List Op) {k slot : Hash} :
    ∀ {s s1 : ScriptManager}, runOps hash s ops = some s1 →
      s.registeredComponents_.lookup k = some slot →
      (∀ op ∈ ops, op.componentKey hash = some k → op.classKey hash = some slot) →
      s1.registeredComponents_.lookup k = some slot := by
  induction ops with
  | nil =>
    intro s s1 h hl _
    simp only [runOps, Option.some.injEq] at h
    subst h
    exact hl
  | cons op ops ih =>
    intro s s1 h hl hkeep
    simp only [runOps] at h
    cases hst : step hash s op with
    | none => simp [hst] at h
    | some s2 =>
      simp only [hst] at h
      exact ih h
        (step_component_lookup_keep hash hst hl (hkeep op (List.mem_cons_self _ _)))
        (fun o ho => hkeep o (List.mem_cons_of_mem _ ho))

/-- C9: after `registerComponent<W, T>(n1)` and any further successful calls `ops`
that do not bind `hash(T)` to another wrapper's slot (in particular none at all),
the component entry for `hash(T)` still points to the class slot `hash(W)`, so
the lookup under `hash(T)` returns the current content of that slot. Hence a
later `registerClass<W>(n2)`, or `registerComponent<W, T2>(n2)` for any `T2`,
makes the lookup under `hash(T)` return the template created by that later call,
which differs from the template of the original `registerComponent<W, T>`. -/
theorem component_lookup_follows_class_slot (hash : String → Hash) (W : JsClass)
    (T n1 : String) (s : ScriptManager) (ops : List Op) (s2 : ScriptManager)
    (hrun : runOps hash (registerComponent hash W T n1 s).2 ops = some s2)
    (hkeep : ∀ op ∈ ops, op.componentKey hash = some (hash T) →
      op.classKey hash = some (hash W.typeName)) :
    let f1 := (s.isolate_.newTemplate (W.create n1)).1
    (getComponentClass (registerComponent hash W T n1 s).2 (hash T)).1 = some f1 ∧
    s2.registeredComponents_.lookup (hash T) = some (hash W.typeName) ∧
    (∃ g, s2.registeredClasses_.lookup (hash W.typeName) = some g ∧
      getComponentClass s2 (hash T) = (Global.Get g, s2)) ∧
    (∀ n2 : String,
      let f2 := (s2.isolate_.newTemplate (W.create n2)).1
      let s3 := (registerClass hash W n2 s2).2
      getComponentClass s3 (hash T) = (some f2, s3) ∧
      s3.registeredClasses_.lookup (hash W.typeName) = some (some f2) ∧
      s3.isolate_.templates[f2]? = some (W.create n2) ∧
      f2 ≠ f1) ∧
    (∀ T2 n2 : String,
      let f2 := (s2.isolate_.newTemplate (W.create n2)).1
      let s3 := (registerComponent hash W T2 n2 s2).2
      getComponentClass s3 (hash T) = (some f2, s3) ∧
      s3.registeredClasses_.lookup (hash W.typeName) = some (some f2) ∧
      (s3.isolate_.templates[f2]?).map (fun t => t.className) =
        some (W.create n2).className ∧
      f2 ≠ f1) := by
  intro f1
  have hc1 : (registerComponent hash W T n1 s).2.registeredComponents_.lookup (hash T) =
      some (hash W.typeName) := by
    simp [registerComponent_eq, AList.lookup_insert]
  have hs1 : (registerComponent hash W T n1 s).2.registeredClasses_.lookup (hash W.typeName) =
      some (some f1) := by
    simp [f1, registerComponent_eq, AList.lookup_insert, Isolate.newTemplate]
  have hget1 := getComponentClass_of_lookups hc1 hs1
  have hc2 : s2.registeredComponents_.lookup (hash T) = some (hash W.typeName) :=
    runOps_component_lookup_keep hash ops hrun hc1 hkeep
  have hmem2 : hash W.typeName ∈ s2.registeredClasses_ :=
    (runOps_registeredClasses_mem hash ops hrun _).mpr
      (Or.inl (AList.lookup_isSome.mp (by rw [hs1]; rfl)))
  have hlen : s.isolate_.templates.length + 1 ≤ s2.isolate_.templates.length := by
    have := runOps_templates_length hash ops hrun
    simpa [registerComponent_eq] using this
  have hf1 : f1 = s.isolate_.templates.length := rfl
  refine ⟨by rw [hget1], hc2, ?_, ?_, ?_⟩
  · rw [← AList.lookup_isSome, Option.isSome_iff_exists] at hmem2
    obtain ⟨g, hg⟩ := hmem2
    exact ⟨g, hg, getComponentClass_of_lookups hc2 hg⟩
  · intro n2 f2 s3
    have hc3 : s3.registeredComponents_.lookup (hash T) = some (hash W.typeName) := by
      simpa [s3, registerClass_eq] using hc2
    have hs3 : s3.registeredClasses_.lookup (hash W.typeName) = some (some f2) := by
      simp [s3, f2, registerClass_eq, AList.lookup_insert, Isolate.newTemplate]
    refine ⟨getComponentClass_of_lookups hc3 hs3, hs3, ?_, ?_⟩
    · simp [s3, f2, registerClass_eq, Isolate.newTemplate]
    · have : f2 = s2.isolate_.templates.length := rfl
      omega
  · intro T2 n2 f2 s3
    have hc3 : s3.registeredComponents_.lookup (hash T) = some (hash W.typeName) := by
      by_cases hk : hash T = hash T2
      · simp only [s3, registerComponent_eq]
        rw [hk, AList.lookup_insert]
      · simp only [s3, registerComponent_eq]
        rw [AList.lookup_insert_ne hk]
        exact hc2
    have hs3 : s3.registeredClasses_.lookup (hash W.typeName) = some (some f2) := by
      simp [s3, f2, registerComponent_eq, AList.lookup_insert, Isolate.newTemplate]
    refine ⟨getComponentClass_of_lookups hc3 hs3, hs3, ?_, ?_⟩
    · simp [s3, f2, registerComponent_eq, Isolate.newTemplate]
    · have : f2 = s2.isolate_.templates.length := rfl
      omega

/-- C9, on a concrete run: `registerComponent<PositionWrapper, "Position">`, then a
mesh class, then `registerClass<PositionWrapper>` again: the lookup under the key
of `"Position"` now returns template 2, not template 0. -/
theorem component_lookup_follows_class_slot_witness :
    runOps lengthHash
        (registerComponent lengthHash PositionWrapper "Position" "Position"
          ScriptManager.init).2 [.registerClass MeshWrapper "Mesh"] =
      some (registerClass lengthHash MeshWrapper "Mesh"
        (registerComponent lengthHash PositionWrapper "Position" "Position"
          ScriptManager.init).2).2 ∧
    (getComponentClass
        (registerClass lengthHash PositionWrapper "Position2"
          (registerClass lengthHash MeshWrapper "Mesh"
            (registerComponent lengthHash PositionWrapper "Position" "Position"
              ScriptManager.init).2).2).2 (lengthHash "Position")).1 = some 2 :=
  ⟨rfl, by
    have h := (component_lookup_follows_class_slot lengthHash PositionWrapper "Position"
      "Position" ScriptManager.init [.registerClass MeshWrapper "Mesh"]
      (registerClass lengthHash MeshWrapper "Mesh"
        (registerComponent lengthHash PositionWrapper "Position" "Position"
          ScriptManager.init).2).2 rfl (by decide)).2.2.2.1 "Position2"
    exact congrArg Prod.fst h.1⟩

/-! ## The scoped runner -/

/-- A native exception thrown by the callback itself passes through `run`, which
then neither inspects the `TryCatch` nor logs. -/
theorem run_of_callback_throw {Value : Type} (ToString : Value → Option String)
    (callback : RunCallback Value) (w : World) (e : Thrown)
    (hthrow : (callback w).completion = .error e) :
    run ToString callback w = (.error e, (callback w).world) := by
  simp [run, hthrow]

/-- `run` after a callback that returned without a script exception. -/
theorem run_of_not_caught {Value : Type} (ToString : Value → Option String)
    (callback : RunCallback Value) (w : World)
    (hret : (callback w).completion = .ok ())
    (hnone : (callback w).tryCatch.exception = none) :
    run ToString callback w = (.ok (), (callback w).world) := by
  simp [run, hret, hnone, TryCatch.HasCaught]

/-- `run` after a callback that returned having left a script exception in the
`TryCatch`: the pointer `*val` is logged, then thrown, then `val` is destroyed. -/
theorem run_of_caught {Value : Type} (ToString : Value → Option String)
    (callback : RunCallback Value) (w : World) (exc : Value)
    (hret : (callback w).completion = .ok ())
    (hsome : (callback w).tryCatch.exception = some exc) :
    run ToString callback w =
      (.error (.Exception (Utf8Value.new (callback w).world.memory (ToString exc)).1.deref),
        { (callback w).world with
          logger := (callback w).world.logger.error
            (Utf8Value.new (callback w).world.memory (ToString exc)).2
            (Utf8Value.new (callback w).world.memory (ToString exc)).1.deref,
          memory := (Utf8Value.new (callback w).world.memory (ToString exc)).1.destroy
            (Utf8Value.new (callback w).world.memory (ToString exc)).2 }) := by
  simp [run, hret, hsome, TryCatch.HasCaught]

theorem readCString_alloc (m : Memory) (content : String) :
    (m.alloc content).2.readCString (some (m.alloc content).1) = some (cString content) := by
  simp [Memory.alloc, Memory.readCString]

theorem readCString_free_alloc (m : Memory) (content : String) :
    ((m.alloc content).2.free (m.alloc content).1).readCString (some (m.alloc content).1) =
      none := by
  simp [Memory.alloc, Memory.free, Memory.readCString]

/-- What `run` logs when the `TryCatch` has caught: one line more than the callback
left, the C string of the string form of the caught value (nothing readable
when the conversion gave an empty handle). -/
theorem run_logger_of_caught {Value : Type} (ToString : Value → Option String)
    (callback : RunCallback Value) (w : World) (exc : Value)
    (hret : (callback w).completion = .ok ())
    (hsome : (callback w).tryCatch.exception = some exc) :
    (run ToString callback w).2.logger.errors =
      (callback w).world.logger.errors ++ [(ToString exc).map cString] := by
  rw [run_of_caught ToString callback w exc hret hsome]
  cases hstr : ToString exc with
  | none => simp [Logger.error, Utf8Value.new, Utf8Value.deref, Memory.readCString]
  | some str =>
    simp only [Logger.error, Utf8Value.new, Utf8Value.deref, readCString_alloc, Option.map_some']

/-- A string form with an embedded NUL reaches the logger and a handler only up to
that NUL. -/
theorem cString_stops_at_nul_example :
    cString (String.mk ['a', Char.ofNat 0, 'b']) = "a" := by
  decide

/-- When the callback threw natively, or returned without a script exception,
`run` leaves the log as the callback left it. -/
theorem run_logger_unchanged {Value : Type} (ToString : Value → Option String)
    (callback : RunCallback Value) (w : World)
    (hquiet : (∃ e, (callback w).completion = .error e) ∨
      (callback w).tryCatch.exception = none) :
    (run ToString callback w).2.logger = (callback w).world.logger := by
  cases hc : (callback w).completion with
  | error e => rw [run_of_callback_throw ToString callback w e hc]
  | ok u =>
    cases hquiet with
    | inl h =>
      obtain ⟨e, he⟩ := h
      rw [hc] at he
      cases he
    | inr h => rw [run_of_not_caught ToString callback w hc h]

/-- The pointer `run` throws designates no text once `run` has been left: the
buffer it points into belonged to `val` and was freed on the way out. -/
theorem run_thrown_pointer_dangles {Value : Type} (ToString : Value → Option String)
    (callback : RunCallback Value) (w : World) (exc : Value)
    (hret : (callback w).completion = .ok ())
    (hsome : (callback w).tryCatch.exception = some exc) :
    ∃ p, (run ToString callback w).1 = .error (.Exception p) ∧
      (run ToString callback w).2.memory.readCString p = none := by
  rw [run_of_caught ToString callback w exc hret hsome]
  refine ⟨_, rfl, ?_⟩
  cases hstr : ToString exc with
  | none => simp [Utf8Value.new, Utf8Value.deref, Memory.readCString]
  | some str =>
    simp only [Utf8Value.new, Utf8Value.deref, Utf8Value.destroy, readCString_free_alloc]

/-- C3 (as stated, refuted): the callback `throwsNative` runs no script, so the
`TryCatch` catches nothing, and throws a native exception of its own; `run`
raises although no script exception was caught. -/
theorem run_raises_without_script_exception_example :
    ¬ ((∃ e, (run stringToString throwsNative World.init).1 = .error e) ↔
        (throwsNative World.init).tryCatch.HasCaught = true) := by
  intro h
  have hraise : ∃ e, (run stringToString throwsNative World.init).1 = .error e :=
    ⟨.other "std::runtime_error", rfl⟩
  have hcaught := h.mp hraise
  revert hcaught
  decide

/-- C3 (amended): for a callback that returns to `run`, applied once to the entry
state, `run` raises a native exception exactly when its `TryCatch` has caught a
script exception; it then raises one exception of the header's `Exception` type,
and otherwise returns normally. In both cases the manager is left as the one
invocation of the callback left it. -/
theorem run_raises_iff_caught {Value : Type} (ToString : Value → Option String)
    (callback : RunCallback Value) (w : World)
    (hret : (callback w).completion = .ok ()) :
    ((∃ e, (run ToString callback w).1 = .error e) ↔
      (callback w).tryCatch.HasCaught = true) ∧
    ((callback w).tryCatch.HasCaught = true →
      ∃ p, (run ToString callback w).1 = .error (.Exception p)) ∧
    ((callback w).tryCatch.HasCaught = false → (run ToString callback w).1 = .ok ()) ∧
    (run ToString callback w).2.scriptManager = (callback w).world.scriptManager := by
  cases hexc : (callback w).tryCatch.exception with
  | none =>
    rw [run_of_not_caught ToString callback w hret hexc]
    simp [TryCatch.HasCaught, hexc]
  | some exc =>
    rw [run_of_caught ToString callback w exc hret hexc]
    simp [TryCatch.HasCaught, hexc]

/-- C3 (amended), on a concrete callback: a script throws the string `boom` and
the callback returns; `run` raises an `Exception`. -/
theorem run_raises_iff_caught_witness :
    (throwsBoom World.init).completion = .ok () ∧
    ∃ p, (run stringToString throwsBoom World.init).1 = .error (.Exception p) :=
  ⟨rfl, (run_raises_iff_caught stringToString throwsBoom World.init rfl).2.1 rfl⟩

/-- C8 (the code at the failing input): a script throws the string `boom` and the
callback returns. `run` logs `boom` once and raises the pointer to buffer 0, and
in the state it raises in that buffer has been freed: the raised exception
carries no text that could equal the logged one. -/
theorem run_logged_text_not_carried_example :
    (run stringToString throwsBoom World.init).1 = .error (.Exception (some 0)) ∧
    (run stringToString throwsBoom World.init).2.logger.errors = [some "boom"] ∧
    (run stringToString throwsBoom World.init).2.memory.buffers = [none] ∧
    (run stringToString throwsBoom World.init).2.memory.readCString (some 0) = none := by
  refine ⟨rfl, ?_, ?_, ?_⟩ <;> decide

end NovaEngine
